import Mathlib

/-!
Verification of the framscript-to-stub generator
(`generate_frams_pyi_from_framscript_pydantic_xml.py`).

The Python source is shallowly embedded below: the pydantic-xml data model
becomes plain structures, each `print(...)` call of the emitter becomes one
"chunk" appended to an output list, and a raised exception (AssertionError,
AttributeError, pydantic ValidationError) becomes an error value carried next
to the chunks emitted so far.
-/

namespace Framspy

/-! ## Python string primitives used by the source -/

/-- `" " * n` — an indentation string of `n` spaces. -/
def spaces (n : Nat) : String :=
  ⟨List.replicate n ' '⟩

/-- Python `s.strip()`: remove leading and trailing whitespace. -/
def pyStrip (s : String) : String :=
  ⟨((s.data.dropWhile Char.isWhitespace).reverse.dropWhile
      Char.isWhitespace).reverse⟩

/-- Python `c in s` for a single character. -/
def pyContains (s : String) (c : Char) : Bool :=
  s.data.contains c

/-- Python `s[0]` (on the non-empty strings the source indexes). -/
def pyFront (s : String) : Char :=
  s.data.headD 'A'

/-- Python `sep.join(lines)`. -/
def pyJoin (sep : String) : List String → String
  | [] => ""
  | [x] => x
  | x :: y :: rest => x ++ sep ++ pyJoin sep (y :: rest)

/-- Splitting a character list at newline characters. -/
def splitOnNl : List Char → List (List Char)
  | [] => [[]]
  | c :: cs =>
      if c = '\n' then [] :: splitOnNl cs
      else
        match splitOnNl cs with
        | [] => [[c]]
        | l :: ls => (c :: l) :: ls

/-- Python `s.splitlines()` for `"\n"`-separated text: the empty string has no
lines; otherwise split on the newline character.  (The emitter only ever calls
this on stripped text, which has no trailing newline.) -/
def pySplitlines (s : String) : List String :=
  if s = "" then [] else (splitOnNl s.data).map (fun l => ⟨l⟩)

/-- Python `s.lower()` (ASCII). -/
def pyLower (s : String) : String :=
  ⟨s.data.map Char.toLower⟩

/-- Quote character chosen by Python `repr` for a string: single quotes unless
the string contains a single quote and no double quote. -/
def pyReprQuote (s : String) : Char :=
  if pyContains s '\'' && !(pyContains s '"') then '"' else '\''

/-- Escaping of one character inside Python `repr` (ASCII-printable model). -/
def pyReprEscape (q : Char) (c : Char) : List Char :=
  if c = '\\' then ['\\', '\\']
  else if c = q then ['\\', q]
  else if c = '\n' then ['\\', 'n']
  else if c = '\r' then ['\\', 'r']
  else if c = '\t' then ['\\', 't']
  else [c]

/-- Python `repr(s)` for a string (ASCII-printable model). -/
def pyRepr (s : String) : String :=
  let q := pyReprQuote s
  ⟨q :: (s.data.flatMap (pyReprEscape q) ++ [q])⟩

/-- Python `repr` applied to an optional string: `repr(None) = "None"`. -/
def pyReprOpt : Option String → String
  | none => "None"
  | some s => pyRepr s

/-- Python `s.replace(' ', '_')`. -/
def replace_spaces (s : String) : String :=
  ⟨s.data.map (fun c => if c = ' ' then '_' else c)⟩

/-- Python truthiness of an `Optional[str]`: `None` and `""` are falsy. -/
def py_truthy : Option String → Bool
  | none => false
  | some s => s ≠ ""

/-! ## Data model (the pydantic-xml classes) -/

/-- `class Argument`: `name`/`type` attributes and a `description` element,
all optional (`description` defaults to `""` when the element is absent). -/
structure Argument where
  name : Option String
  type : Option String
  description : Option String
deriving DecidableEq

/-- `class Element`: one field or function of a `Type`. -/
structure FsElement where
  id : String
  name : Option String
  type : Option String
  function : Option String
  deprecated : Option String
  default : Option String
  min : Option String
  max : Option String
  flags : Option String
  description : Option String
  arguments : Option (List Argument)
deriving DecidableEq

/-- `Element.is_function`: the `function` attribute equals `"true"`. -/
def FsElement.is_function (el : FsElement) : Bool :=
  el.function == some "true"

/-- `Element.is_deprecated`: the `deprecated` attribute equals `"true"`. -/
def FsElement.is_deprecated (el : FsElement) : Bool :=
  el.deprecated == some "true"

/-- `Element.get_arguments`: the wrapped argument list, or `[]` when the
`arguments` element is absent. -/
def FsElement.get_arguments (el : FsElement) : List Argument :=
  match el.arguments with
  | some l => l
  | none => []

/-- `class Type`: a named type with a context tag, a description and an
ordered element list. -/
structure FsType where
  name : String
  context : String
  description : Option String
  elements : List FsElement
deriving DecidableEq

/-- `class FramscriptDoc`: the document root, an ordered list of types. -/
structure FramscriptDoc where
  types : List FsType
deriving DecidableEq

/-! ## Module constants -/

/-- `INVALID_PY_IDENTS`. -/
def INVALID_PY_IDENTS : List String :=
  ["import", "class", "def", "as"]

/-- `GLOBAL_CONTEXT`. -/
def GLOBAL_CONTEXT : String := "Global context"

/-- `MAP_TO_SIMPLE_PY_TYPE` — the framscript-to-Python primitive table,
as a lookup returning `none` for keys not in the dict. -/
def MAP_TO_SIMPLE_PY_TYPE (s : String) : Option String :=
  if s = "string" then some "str"
  else if s = "float" then some "float"
  else if s = "integer" then some "int"
  else if s = "void" then some "None"
  else if s = "untyped" then some "Any"
  else none

/-! ## Pure formatting helpers of the source -/

/-- `format_description_as_docstring(desc, indent)`. -/
def format_description_as_docstring (desc : String) (indent : Nat) : String :=
  let desc_lines := pySplitlines (pyStrip desc)
  if desc_lines = [] then ""
  else if desc_lines.length = 1 && !(pyContains desc '\\') then
    spaces indent ++ pyRepr (desc_lines.headD "")
  else
    pyJoin "\n"
      ((spaces indent ++ (if pyContains desc '\\' then "r\"\"\"" else "\"\"\""))
        :: desc_lines.map (fun ln => spaces indent ++ ln)
        ++ [spaces indent ++ "\"\"\""])

/-- `format_as_python_type_extvalue(el_type)`: `(type expression, comment)`.
The input is optional because one call site passes a possibly-`None` field
type; Python's `dict.get(None)` simply returns `None` there. -/
def format_as_python_type_extvalue (el_type : Option String) : String × Option String :=
  let maybe_py_type := match el_type with
    | some s => MAP_TO_SIMPLE_PY_TYPE s
    | none => none
  if maybe_py_type = some "int" ∨ maybe_py_type = some "float" ∨
      maybe_py_type = some "str" ∨ maybe_py_type = some "None" then
    ("ExtValue[" ++ maybe_py_type.getD "" ++ "]", some "")
  else
    ("ExtValue", el_type)

/-! ## Emission machinery

Each `print(s)` of the emitter appends the chunk `s` (the terminating newline
is added when the chunks are joined into the final text).  A raised exception
aborts emission: the chunks printed so far stand, everything after is dropped.
-/

/-- An emission outcome: the chunks printed, and the exception (if any) that
aborted the run. -/
abbrev Emit := List String × Option String

/-- Sequential composition of two emission outcomes: if the first aborted,
the second never runs. -/
def eseq (a b : Emit) : Emit :=
  match a.2 with
  | none => (a.1 ++ b.1, b.2)
  | some e => (a.1, some e)

/-- A single successful `print`. -/
def chunk (s : String) : Emit := ([s], none)

/-- Emit nothing (a skipped conditional `print`). -/
def enop : Emit := ([], none)

/-- Join chunks into the text that reaches the stream: `print` appends one
newline per chunk. -/
def outTextOf (chunks : List String) : String :=
  String.join (chunks.map (fun c => c ++ "\n"))

/-! ## The stub emitter (`main_write_framscript_part_of_the_stub`) -/

/-- The set of duplicated element ids of one type: ids whose frequency in the
type's own element list exceeds one (`collections.Counter`, kept `> 1`). -/
def duplicate_elements (els : List FsElement) : List String :=
  (els.map FsElement.id).filter
    (fun i => decide (2 ≤ (els.map FsElement.id).count i))

/-- `id_py`: the element id, with a trailing underscore appended when it
collides with a reserved Python identifier. -/
def id_py (el : FsElement) : String :=
  if el.id ∈ INVALID_PY_IDENTS then el.id ++ "_" else el.id

/-- The description used for an element's docstring: `el.description or ""`,
with `el.name` prepended when it differs materially from the id
(case-insensitively, and not merely the id plus `" object"`). -/
def descr_with_name (el : FsElement) : String :=
  let descr := (el.description.getD "")
  match el.name with
  | none => descr
  | some nm =>
      if pyLower nm ≠ pyLower el.id ∧ pyLower nm ≠ pyLower el.id ++ " object"
      then nm ++ "\n\n" ++ descr
      else descr

/-- `arg.name or "_"`: the placeholder for an absent (or empty, hence falsy)
argument name. -/
def py_or_underscore : Option String → String
  | none => "_"
  | some s => if s = "" then "_" else s

/-- Prefix `a_` when the first character is a digit (invalid Python
identifier otherwise). -/
def fix_leading_digit (s : String) : String :=
  if (pyFront s).isDigit then "a_" ++ s else s

/-- Append the `_2` suffix when the name was already used earlier in the same
argument list. -/
def disambiguate (seen : List String) (s : String) : String :=
  if s ∈ seen then s ++ "_2" else s

/-- The legalized argument name (before space replacement), as a function of
the names already seen earlier in the list. -/
def process_arg_name (seen : List String) (name : Option String) : String :=
  disambiguate seen (fix_leading_digit (py_or_underscore name))

/-- The type annotation of one argument: the bare mapped primitive name, or
`repr` of the original type as a fallback. -/
def arg_type_text (a : Argument) : String :=
  match (match a.type with
         | some s => MAP_TO_SIMPLE_PY_TYPE s
         | none => none) with
  | some py => py
  | none => pyReprOpt a.type

/-- The argument loop of the function branch: asserts each argument's
description is falsy, legalizes the name against the names seen so far, and
builds the `name: type` entries.  Returns the entries and the exception if
the assertion fired. -/
def emitArgsLoop (seen : List String) : List Argument → List String × Option String
  | [] => ([], none)
  | a :: rest =>
      if py_truthy a.description then
        ([], some "AssertionError: argument with non-empty description")
      else
        let nm := process_arg_name seen a.name
        let entry := replace_spaces nm ++ ": " ++ arg_type_text a
        match emitArgsLoop (seen ++ [nm]) rest with
        | (entries, err) => (entry :: entries, err)

/-- The fresh value the local `ret_type_comment` receives when the element
declares a type `t`: the mapper's comment, wrapped in `  # returns …` when
truthy (non-empty). -/
def ret_type_comment_of (t : String) : String :=
  let c := (format_as_python_type_extvalue (some t)).2.getD ""
  if c ≠ "" then "  # returns " ++ c else c

/-- The `def` line of an emitted function: `rt` is the ` -> …` return-type
suffix (empty for a type-less element) and `rc` the value of the
`ret_type_comment` local at the print. -/
def function_signature (el : FsElement) (entries : List String)
    (rt rc : String) : String :=
  "    def " ++ id_py el ++ "(" ++ pyJoin ", " entries ++ ")" ++ rt ++ ":" ++ rc

/-- The decorator chunks printed before a function signature, in source
order. -/
def decorator_chunks (dups : List String) (el : FsElement) : List String :=
  (if el.is_deprecated then ["    @deprecated"] else []) ++
  (if el.id ∈ dups then ["    @overload"] else []) ++
  ["    @staticmethod"]

/-- Emission of one function element.  The argument loop runs first (its
assertion aborts before anything of this element is printed).  The local
`ret_type_comment` (`rtc`, `none` while still unassigned) is only written in
the `el.type is not None` branch but is read unconditionally by the signature
f-string: a type-less element therefore reuses the stale value from the last
typed function, and if no typed function has run yet the f-string raises
`UnboundLocalError` — after the decorator prints, before the signature.
Returns the emission outcome and the new value of the local. -/
def emitFunctionElement (dups : List String) (rtc : Option String)
    (el : FsElement) : Emit × Option String :=
  match emitArgsLoop [] el.get_arguments with
  | (_, some e) => (([], some e), rtc)
  | (entries, none) =>
      match el.type with
      | some t =>
          ((decorator_chunks dups el ++
            [function_signature el entries
              (" -> " ++ (format_as_python_type_extvalue (some t)).1)
              (ret_type_comment_of t),
             format_description_as_docstring (descr_with_name el) 8,
             "        ...", ""], none),
           some (ret_type_comment_of t))
      | none =>
          match rtc with
          | some c =>
              ((decorator_chunks dups el ++
                [function_signature el entries "" c,
                 format_description_as_docstring (descr_with_name el) 8,
                 "        ...", ""], none),
               some c)
          | none =>
              ((decorator_chunks dups el,
                some "UnboundLocalError: cannot access local variable ret_type_comment"),
               none)

/-- Emission of one field element: the annotated assignment line with the
opaque-type comment when the mapper reported one, then the docstring only
when the description is non-empty.  (Fields use the separate, always-assigned
`el_type_comment` local, so they neither read nor write `ret_type_comment`.) -/
def emitFieldElement (el : FsElement) : Emit :=
  let tc := format_as_python_type_extvalue el.type
  let cmt := if py_truthy tc.2 then "  # " ++ tc.2.getD "" else ""
  eseq (chunk ("    " ++ id_py el ++ ": " ++ tc.1 ++ cmt))
       (if descr_with_name el ≠ "" then
          chunk (format_description_as_docstring (descr_with_name el) 4)
        else enop)

/-- Emission of one element: `is_function` is the sole discriminator. -/
def emitElement (dups : List String) (rtc : Option String)
    (el : FsElement) : Emit × Option String :=
  if el.is_function then emitFunctionElement dups rtc el
  else (emitFieldElement el, rtc)

/-- The element loop of one type, in declaration order, threading the
`ret_type_comment` local. -/
def emitElementsLoop (dups : List String) (rtc : Option String) :
    List FsElement → Emit × Option String
  | [] => (enop, rtc)
  | el :: rest =>
      match emitElement dups rtc el with
      | ((chunks, some e), rtc') => ((chunks, some e), rtc')
      | ((chunks, none), rtc') =>
          match emitElementsLoop dups rtc' rest with
          | (e2, rtc'') => ((chunks ++ e2.1, e2.2), rtc'')

/-- The type-docstring region: the placeholder chunk is printed only when the
description is `None`, in which case the following
`format_description_as_docstring(None)` raises (`None` has no `.strip`);
otherwise the formatted description and the blank `print()`. -/
def emitTypeDoc : Option String → Emit
  | none =>
      (["    \"(missing docstring?)\""],
       some "AttributeError: NoneType object has no attribute strip")
  | some s => ([format_description_as_docstring s 4, ""], none)

/-- Emission of one (global-context) type: class line, docstring region,
elements, trailing blank chunk, threading the `ret_type_comment` local. -/
def emitType (rtc : Option String) (t : FsType) : Emit × Option String :=
  match eseq (chunk ("class " ++ t.name ++ "(ExtValue):"))
      (emitTypeDoc t.description) with
  | (pre1, some e) => ((pre1, some e), rtc)
  | (pre1, none) =>
      match emitElementsLoop (duplicate_elements t.elements) rtc t.elements with
      | ((echunks, some e), rtc') => ((pre1 ++ echunks, some e), rtc')
      | ((echunks, none), rtc') => ((pre1 ++ echunks ++ [""], none), rtc')

/-- The type loop: types whose context is not in the pair
`(GLOBAL_CONTEXT, "Global context")` are skipped wholesale (`continue`,
touching neither the output nor the `ret_type_comment` local). -/
def emitTypesLoop (rtc : Option String) : List FsType → Emit × Option String
  | [] => (enop, rtc)
  | t :: rest =>
      if t.context == GLOBAL_CONTEXT || t.context == "Global context" then
        match emitType rtc t with
        | ((chunks, some e), rtc') => ((chunks, some e), rtc')
        | ((chunks, none), rtc') =>
            match emitTypesLoop rtc' rest with
            | (e2, rtc'') => ((chunks ++ e2.1, e2.2), rtc'')
      else
        emitTypesLoop rtc rest

/-- In-order sequencing of a list of stateful emitters: stop at the first
abort, thread the state otherwise.  Used to state order-preservation. -/
def seqAllS (rtc : Option String) :
    List (Option String → Emit × Option String) → Emit × Option String
  | [] => (enop, rtc)
  | f :: fs =>
      match f rtc with
      | ((chunks, some e), rtc') => ((chunks, some e), rtc')
      | ((chunks, none), rtc') =>
          match seqAllS rtc' fs with
          | (e2, rtc'') => ((chunks ++ e2.1, e2.2), rtc'')

/-- The fixed header chunks printed before any type. -/
def headerChunks : List String :=
  ["from warnings import deprecated",
   "from typing import Any, overload",
   "from typing import Any as Object\n\n",
   "class ExtValue: ...\n\n"]

/-- `main_write_framscript_part_of_the_stub(doc)`: the `ret_type_comment`
local starts unassigned. -/
def main_write_framscript_part_of_the_stub (doc : FramscriptDoc) : Emit :=
  eseq (headerChunks, none) (emitTypesLoop none doc.types).1

/-! ## The `__main__` driver -/

/-- One entry of a pydantic `ValidationError`: a field path and a message. -/
structure ValidationErr where
  loc : List String
  msg : String
deriving DecidableEq

/-- The line `print(err)` produces for one validation-error entry (a rendering
of the error dict's field path and message). -/
def reprValidationErr (e : ValidationErr) : String :=
  "loc: (" ++ pyJoin ", " e.loc ++ ") msg: " ++ e.msg

/-- What a process run leaves behind: the chunks printed to standard output,
the chunks printed to the error stream, and the exit code. -/
structure ProcessOutcome where
  stdoutChunks : List String
  stderrChunks : List String
  exitCode : Nat
deriving DecidableEq

/-- The `__main__` block, as a function of the parse outcome.  On a
`ValidationError` the handler prints the traceback to stderr, then `----` and
every error entry to **stdout**, and the script falls off the end: exit
code 0.  On any other exception the generic handler prints and the script
likewise ends with exit code 0.  On success the buffered stub is printed to
stdout (the external formatter is modelled as its identity fallback). -/
def runMain (parseResult : Except (List ValidationErr) FramscriptDoc) :
    ProcessOutcome :=
  match parseResult with
  | .error errs =>
      { stdoutChunks := "----\n\n\n" :: errs.map reprValidationErr
        stderrChunks := ["traceback: pydantic ValidationError"]
        exitCode := 0 }
  | .ok doc =>
      match main_write_framscript_part_of_the_stub doc with
      | (chunks, none) =>
          { stdoutChunks := [outTextOf chunks]
            stderrChunks := []
            exitCode := 0 }
      | (_, some e) =>
          { stdoutChunks := ["<class Exception>", "Error: " ++ e]
            stderrChunks := ["traceback"]
            exitCode := 0 }

/-- A chunk is a class declaration line exactly when it starts with the six
characters `class `: every other chunk the emitter produces is empty or
starts with indentation. -/
def isClassLine (s : String) : Bool :=
  decide (s.data.take 6 = "class ".data)

/-! ## Concrete sample inputs used by counterexamples and witnesses -/

/-- A field element (not a function) with a given id and integer type. -/
def sampleField (i : String) : FsElement :=
  { id := i, name := none, type := some "integer", function := some "false",
    deprecated := some "false", default := none, min := none, max := none,
    flags := none, description := some "", arguments := none }

/-- A global-context type with two field elements sharing the id `x`. -/
def dupFieldType : FsType :=
  { name := "T", context := "Global context", description := some "",
    elements := [sampleField "x", sampleField "x"] }

/-- A function element with a non-empty description and no arguments. -/
def describedFn : FsElement :=
  { id := "f", name := none, type := some "void", function := some "true",
    deprecated := some "false", default := none, min := none, max := none,
    flags := none, description := some "Hi", arguments := none }

/-- A global-context type whose description is the empty string. -/
def emptyDescType : FsType :=
  { name := "U", context := "Global context", description := some "",
    elements := [] }

/-- A global-context type whose description is absent (`None`). -/
def noneDescType : FsType :=
  { name := "V", context := "Global context", description := none,
    elements := [] }

/-- A function element with one argument carrying a non-empty description. -/
def describedArgFn : FsElement :=
  { id := "g", name := none, type := some "void", function := some "true",
    deprecated := some "false", default := none, min := none, max := none,
    flags := none, description := some "",
    arguments := some [{ name := some "x", type := some "float",
                         description := some "X coordinate" }] }

/-- A global-context type containing `describedArgFn`. -/
def describedArgType : FsType :=
  { name := "W", context := "Global context", description := some "",
    elements := [describedArgFn] }

/-- A function element with id `m`, used twice in one type to form an
overload pair. -/
def overloadFn : FsElement :=
  { id := "m", name := none, type := some "void", function := some "true",
    deprecated := some "false", default := none, min := none, max := none,
    flags := none, description := some "", arguments := none }

/-- A type in a non-global context. -/
def expdefType : FsType :=
  { name := "E", context := "expdef file", description := some "",
    elements := [sampleField "y"] }

/-- A small two-type document: one global type, one `expdef file` type. -/
def sampleDoc : FramscriptDoc :=
  { types := [emptyDescType, expdefType] }

/-- The validation-error list for a document whose first type lacks the
required `name` attribute. -/
def missingNameErrs : List ValidationErr :=
  [{ loc := ["types", "0", "name"], msg := "Field required" }]

/-! ## Helper lemmas -/

theorem eseq_of_none {a : Emit} (b : Emit) (h : a.2 = none) :
    eseq a b = (a.1 ++ b.1, b.2) := by
  unfold eseq
  rw [h]

theorem eseq_chunk (s : String) (b : Emit) :
    eseq (chunk s) b = (s :: b.1, b.2) := rfl

theorem eseq_snd_none_iff (a b : Emit) :
    (eseq a b).2 = none ↔ a.2 = none ∧ b.2 = none := by
  unfold eseq
  match h : a.2 with
  | none => simp
  | some e => simp [h]

theorem splitOnNl_ne_nil (cs : List Char) : splitOnNl cs ≠ [] := by
  match cs with
  | [] => simp [splitOnNl]
  | c :: cs' =>
      unfold splitOnNl
      split
      · simp
      · match h : splitOnNl cs' with
        | [] => simp
        | l :: ls => simp

theorem pySplitlines_eq_nil_iff (s : String) :
    pySplitlines s = [] ↔ s = "" := by
  unfold pySplitlines
  split
  · simp [*]
  · simp only [List.map_eq_nil_iff]
    constructor
    · intro h
      exact absurd h (splitOnNl_ne_nil s.data)
    · intro h
      contradiction

theorem append_ne_of_take_ne (p x q : String)
    (h : q.data.take p.data.length ≠ p.data) : p ++ x ≠ q := by
  intro he
  apply h
  have hd := congrArg String.data he
  rw [String.data_append] at hd
  rw [← hd, List.take_left]

theorem pyRepr_ne_empty (s : String) : pyRepr s ≠ "" := by
  unfold pyRepr
  intro h
  have hd := congrArg String.data h
  simp at hd

theorem append_ne_empty_left (a b : String) (h : a ≠ "") : a ++ b ≠ "" := by
  intro he
  apply h
  have hd := congrArg String.data he
  rw [String.data_append] at hd
  rcases List.append_eq_nil.mp hd with ⟨h1, _⟩
  exact String.ext h1

theorem pyJoin_cons_data (x : String) (xs : List String) :
    ∃ r, (pyJoin "\n" (x :: xs)).data = x.data ++ r := by
  match xs with
  | [] => exact ⟨[], by simp [pyJoin]⟩
  | y :: rest =>
      refine ⟨("\n" ++ pyJoin "\n" (y :: rest)).data, ?_⟩
      show (x ++ "\n" ++ pyJoin "\n" (y :: rest)).data = _
      rw [String.data_append, String.data_append, String.data_append,
        List.append_assoc]

theorem pyJoin_cons_ne_empty (x : String) (xs : List String) (h : x ≠ "") :
    pyJoin "\n" (x :: xs) ≠ "" := by
  obtain ⟨r, hr⟩ := pyJoin_cons_data x xs
  intro he
  apply h
  have hd := congrArg String.data he
  rw [hr] at hd
  rcases List.append_eq_nil.mp hd with ⟨h1, _⟩
  exact String.ext h1

theorem spaces_data (n : Nat) : (spaces n).data = List.replicate n ' ' := rfl

theorem format_docstring_of_trim_empty (desc : String) (i : Nat)
    (h : (pyStrip desc) = "") :
    format_description_as_docstring desc i = "" := by
  unfold format_description_as_docstring
  rw [if_pos ((pySplitlines_eq_nil_iff (pyStrip desc)).mpr h)]

theorem format_docstring_single (desc ln : String) (i : Nat)
    (h : pySplitlines (pyStrip desc) = [ln]) (hb : pyContains desc '\\' = false) :
    format_description_as_docstring desc i = spaces i ++ pyRepr ln := by
  unfold format_description_as_docstring
  rw [h]
  simp [hb]

theorem format_docstring_block (desc : String) (i : Nat)
    (hne : pySplitlines (pyStrip desc) ≠ [])
    (h : (pySplitlines (pyStrip desc)).length ≠ 1 ∨ pyContains desc '\\' = true) :
    format_description_as_docstring desc i =
      pyJoin "\n"
        ((spaces i ++ (if pyContains desc '\\' then "r\"\"\"" else "\"\"\""))
          :: (pySplitlines (pyStrip desc)).map (fun ln => spaces i ++ ln)
          ++ [spaces i ++ "\"\"\""]) := by
  unfold format_description_as_docstring
  rw [if_neg hne, if_neg]
  simp only [Bool.and_eq_true, decide_eq_true_eq, Bool.not_eq_true']
  rintro ⟨h1, h2⟩
  rcases h with h | h
  · exact h h1
  · rw [h] at h2
    cases h2

theorem format_docstring_data_take (s : String) (i : Nat) :
    format_description_as_docstring s i = "" ∨
    (format_description_as_docstring s i).data.take i = List.replicate i ' ' := by
  by_cases h0 : pySplitlines (pyStrip s) = []
  · left
    exact format_docstring_of_trim_empty s i ((pySplitlines_eq_nil_iff _).mp h0)
  · by_cases h1 : (pySplitlines (pyStrip s)).length = 1 ∧ pyContains s '\\' = false
    · obtain ⟨ln, hln⟩ := List.length_eq_one.mp h1.1
      right
      rw [format_docstring_single s ln i hln h1.2, String.data_append,
        spaces_data]
      exact List.take_left' (List.length_replicate i ' ')
    · right
      have h2 : (pySplitlines (pyStrip s)).length ≠ 1 ∨ pyContains s '\\' = true := by
        by_cases hc : pyContains s '\\' = true
        · exact Or.inr hc
        · left
          intro hl
          exact h1 ⟨hl, Bool.not_eq_true _ ▸ (by simpa using hc)⟩
      rw [format_docstring_block s i h0 h2, List.cons_append]
      obtain ⟨r, hr⟩ := pyJoin_cons_data
        (spaces i ++ (if pyContains s '\\' then "r\"\"\"" else "\"\"\""))
        ((pySplitlines (pyStrip s)).map (fun ln => spaces i ++ ln)
          ++ [spaces i ++ "\"\"\""])
      rw [hr, String.data_append, spaces_data, List.append_assoc]
      exact List.take_left' (List.length_replicate i ' ')

theorem format_docstring_ne_of (s q : String) (i : Nat) (hq1 : q ≠ "")
    (hq2 : q.data.take i ≠ List.replicate i ' ') :
    format_description_as_docstring s i ≠ q := by
  rcases format_docstring_data_take s i with h | h
  · rw [h]
    exact fun he => hq1 he.symm
  · intro he
    rw [he] at h
    exact hq2 h

theorem data_head_space_of_take (l : List Char) (i : Nat) (hi : 1 ≤ i)
    (h : l.take i = List.replicate i ' ') : l.head? = some ' ' := by
  match l, i with
  | [], i =>
      exfalso
      rw [List.take_nil] at h
      have := congrArg List.length h
      simp at this
      omega
  | a :: t, Nat.succ n =>
      rw [List.take_succ_cons, List.replicate_succ] at h
      simp only [List.cons.injEq] at h
      simp [h.1]

theorem isClassLine_empty : isClassLine "" = false := by decide

theorem class_prefix_data : "class ".data = ['c', 'l', 'a', 's', 's', ' '] := rfl

theorem isClassLine_false_of_head (s : String) (h : s.data.head? ≠ some 'c') :
    isClassLine s = false := by
  unfold isClassLine
  simp only [decide_eq_false_iff_not]
  intro he
  apply h
  match hs : s.data with
  | [] =>
      rw [hs, List.take_nil] at he
      exact absurd he (by decide)
  | a :: t =>
      rw [hs, List.take_succ_cons] at he
      simp only [List.cons.injEq] at he
      simp [he.1]

theorem isClassLine_class (x : String) : isClassLine ("class " ++ x) = true := by
  unfold isClassLine
  rw [String.data_append]
  simp only [decide_eq_true_eq]
  exact List.take_left' rfl

theorem head_space_append (a b : String) (h : a.data.head? = some ' ') :
    (a ++ b).data.head? = some ' ' := by
  rw [String.data_append]
  match ha : a.data with
  | [] =>
      rw [ha] at h
      cases h
  | c :: t =>
      rw [ha] at h
      simp only [List.head?_cons, Option.some.injEq] at h
      simp [h]

theorem eseq_fst_subset (a b : Emit) (c : String) (h : c ∈ (eseq a b).1) :
    c ∈ a.1 ∨ c ∈ b.1 := by
  unfold eseq at h
  match ha : a.2 with
  | none =>
      rw [ha] at h
      exact List.mem_append.mp h
  | some e =>
      rw [ha] at h
      exact Or.inl h

theorem append_ne_empty_right (a b : String) (h : b ≠ "") : a ++ b ≠ "" := by
  intro he
  apply h
  have hd := congrArg String.data he
  rw [String.data_append] at hd
  rcases List.append_eq_nil.mp hd with ⟨_, h2⟩
  exact String.ext h2

theorem format_extvalue_other (s : String) (h1 : s ≠ "string") (h2 : s ≠ "float")
    (h3 : s ≠ "integer") (h4 : s ≠ "void") :
    format_as_python_type_extvalue (some s) = ("ExtValue", some s) := by
  by_cases h5 : s = "untyped"
  · subst h5
    decide
  · unfold format_as_python_type_extvalue MAP_TO_SIMPLE_PY_TYPE
    simp [h1, h2, h3, h4, h5]

/-! ## Claim C3 — totality of the type mapper -/

/-- Claim C3: for every type-name string, the type mapper returns a non-empty
type expression and never fails; the primitive names `string`, `float`,
`integer`, `void` yield the parameterized wrapper with an empty comment, and
every other name (the `untyped` sentinel included) yields the bare `ExtValue`
together with a comment equal to the original name. -/
theorem claim_C3_type_mapper_total (s : String) :
    (format_as_python_type_extvalue (some s)).1 ≠ "" ∧
    (s = "string" →
      format_as_python_type_extvalue (some s) = ("ExtValue[str]", some "")) ∧
    (s = "float" →
      format_as_python_type_extvalue (some s) = ("ExtValue[float]", some "")) ∧
    (s = "integer" →
      format_as_python_type_extvalue (some s) = ("ExtValue[int]", some "")) ∧
    (s = "void" →
      format_as_python_type_extvalue (some s) = ("ExtValue[None]", some "")) ∧
    (¬(s = "string" ∨ s = "float" ∨ s = "integer" ∨ s = "void") →
      format_as_python_type_extvalue (some s) = ("ExtValue", some s)) := by
  refine ⟨?_, fun h => by subst h; decide, fun h => by subst h; decide,
    fun h => by subst h; decide, fun h => by subst h; decide, fun h => ?_⟩
  · by_cases h1 : s = "string"
    · subst h1; decide
    · by_cases h2 : s = "float"
      · subst h2; decide
      · by_cases h3 : s = "integer"
        · subst h3; decide
        · by_cases h4 : s = "void"
          · subst h4; decide
          · rw [format_extvalue_other s h1 h2 h3 h4]
            show ("ExtValue" : String) ≠ ""
            decide
  · push_neg at h
    exact format_extvalue_other s h.1 h.2.1 h.2.2.1 h.2.2.2

/-- Witness for C3 at the unknown type name `Vector`. -/
theorem claim_C3_witness :
    format_as_python_type_extvalue (some "Vector") = ("ExtValue", some "Vector") :=
  (claim_C3_type_mapper_total "Vector").2.2.2.2.2 (by decide)

/-! ## Claim C5 — docstring formatter -/

/-- Claim C5: for every description string and indentation width the formatter
returns empty output when the trimmed text is empty; a single quoted literal
line when the text is one line with no backslash; and otherwise a
triple-quote-delimited block with each source line indented, the raw
delimiter variant being chosen exactly when the text contains a backslash. -/
theorem claim_C5_docstring_formatter (desc : String) (indent : Nat) :
    (format_description_as_docstring desc indent = "" ↔ (pyStrip desc) = "") ∧
    (∀ ln, pySplitlines (pyStrip desc) = [ln] → pyContains desc '\\' = false →
      format_description_as_docstring desc indent = spaces indent ++ pyRepr ln) ∧
    (((pySplitlines (pyStrip desc)).length ≠ 1 ∨ pyContains desc '\\' = true) →
      (pyStrip desc) ≠ "" →
      format_description_as_docstring desc indent =
        pyJoin "\n"
          ((spaces indent ++ (if pyContains desc '\\' then "r\"\"\"" else "\"\"\""))
            :: (pySplitlines (pyStrip desc)).map (fun ln => spaces indent ++ ln)
            ++ [spaces indent ++ "\"\"\""])) := by
  refine ⟨⟨?_, fun h => format_docstring_of_trim_empty desc indent h⟩,
    fun ln h hb => format_docstring_single desc ln indent h hb,
    fun h htr => format_docstring_block desc indent
      (fun hh => htr ((pySplitlines_eq_nil_iff _).mp hh)) h⟩
  intro h
  by_contra htr
  have hne : pySplitlines (pyStrip desc) ≠ [] :=
    fun hh => htr ((pySplitlines_eq_nil_iff _).mp hh)
  by_cases h1 : (pySplitlines (pyStrip desc)).length = 1 ∧ pyContains desc '\\' = false
  · obtain ⟨ln, hln⟩ := List.length_eq_one.mp h1.1
    rw [format_docstring_single desc ln indent hln h1.2] at h
    exact append_ne_empty_right _ _ (pyRepr_ne_empty ln) h
  · have h2 : (pySplitlines (pyStrip desc)).length ≠ 1 ∨ pyContains desc '\\' = true := by
      by_cases hc : pyContains desc '\\' = true
      · exact Or.inr hc
      · exact Or.inl (fun hl => h1 ⟨hl, by simpa using hc⟩)
    rw [format_docstring_block desc indent hne h2, List.cons_append] at h
    exact pyJoin_cons_ne_empty _ _
      (append_ne_empty_right _ _ (by split <;> decide)) h

/-- Witness for C5 on a one-line backslash-free description. -/
theorem claim_C5_witness :
    format_description_as_docstring "Hi" 8 = spaces 8 ++ pyRepr "Hi" :=
  (claim_C5_docstring_formatter "Hi" 8).2.1 "Hi" (by decide) (by decide)

/-! ## Claim C7 — argument-name legalization -/

/-- Claim C7: arguments are processed left to right; an absent name becomes
the underscore placeholder, a digit-leading name is prefixed with `a_`, a name
already seen earlier in the same list receives the `_2` suffix, spaces are
replaced by underscores in the emitted name, and the result depends only on
the argument and the set of names already seen. -/
theorem claim_C7_argument_legalization (seen : List String) (name : Option String) :
    (name = none → process_arg_name seen none = disambiguate seen "_") ∧
    (∀ s, name = some s → s ≠ "" → (pyFront s).isDigit = true →
      process_arg_name seen name = disambiguate seen ("a_" ++ s)) ∧
    (fix_leading_digit (py_or_underscore name) ∈ seen →
      process_arg_name seen name =
        fix_leading_digit (py_or_underscore name) ++ "_2") ∧
    (∀ c, c ∈ (replace_spaces (process_arg_name seen name)).data → c ≠ ' ') ∧
    (∀ seen', (∀ x, x ∈ seen ↔ x ∈ seen') →
      process_arg_name seen name = process_arg_name seen' name) ∧
    (∀ (a : Argument) (rest : List Argument),
      a.name = name → py_truthy a.description = false →
      emitArgsLoop seen (a :: rest) =
        ((replace_spaces (process_arg_name seen name) ++ ": " ++ arg_type_text a)
            :: (emitArgsLoop (seen ++ [process_arg_name seen name]) rest).1,
         (emitArgsLoop (seen ++ [process_arg_name seen name]) rest).2)) := by
  refine ⟨?_, ?_, ?_, ?_, ?_, ?_⟩
  · intro _
    have hfix : fix_leading_digit (py_or_underscore none) = "_" := by decide
    unfold process_arg_name
    rw [hfix]
  · intro s hs hne hd
    subst hs
    unfold process_arg_name
    have h1 : py_or_underscore (some s) = s := by
      simp only [py_or_underscore]
      rw [if_neg hne]
    rw [h1]
    unfold fix_leading_digit
    rw [if_pos hd]
  · intro h
    unfold process_arg_name disambiguate
    rw [if_pos h]
  · intro c hc
    simp only [replace_spaces, List.mem_map] at hc
    obtain ⟨c', _, rfl⟩ := hc
    by_cases h : c' = ' ' <;> simp [h]
  · intro seen' h
    unfold process_arg_name disambiguate
    by_cases hx : fix_leading_digit (py_or_underscore name) ∈ seen
    · rw [if_pos hx, if_pos ((h _).mp hx)]
    · rw [if_neg hx, if_neg (fun hc => hx ((h _).mpr hc))]
  · intro a rest ha hdesc
    subst ha
    rcases hE : emitArgsLoop (seen ++ [process_arg_name seen a.name])
        rest with ⟨entries, err⟩
    simp only [emitArgsLoop, hdesc, Bool.false_eq_true, if_false, hE]

/-- Witness for C7: a repeated argument name receives the `_2` suffix. -/
theorem claim_C7_witness :
    process_arg_name ["x"] (some "x") =
      fix_leading_digit (py_or_underscore (some "x")) ++ "_2" :=
  (claim_C7_argument_legalization ["x"] (some "x")).2.2.1 (by decide)

/-! ## Claims C4 and C6 — function-element emission -/

theorem mem_duplicate_elements (els : List FsElement) (i : String) :
    i ∈ duplicate_elements els ↔ 2 ≤ (els.map FsElement.id).count i := by
  unfold duplicate_elements
  rw [List.mem_filter]
  constructor
  · rintro ⟨_, h2⟩
    exact of_decide_eq_true h2
  · intro h
    refine ⟨?_, decide_eq_true h⟩
    have hpos : 0 < (els.map FsElement.id).count i := by omega
    exact List.count_pos_iff.mp hpos

theorem function_signature_ne_overload (el : FsElement) (entries : List String)
    (rt rc : String) :
    function_signature el entries rt rc ≠ "    @overload" := by
  unfold function_signature
  simp only [String.append_assoc]
  exact append_ne_of_take_ne "    def " _ _ (by decide)

theorem format_docstring_drop (s : String) (i : Nat) :
    format_description_as_docstring s i = "" ∨
    ∃ c r, (format_description_as_docstring s i).data =
        List.replicate i ' ' ++ c :: r ∧ (c = '\'' ∨ c = '"' ∨ c = 'r') := by
  by_cases h0 : pySplitlines (pyStrip s) = []
  · left
    exact format_docstring_of_trim_empty s i ((pySplitlines_eq_nil_iff _).mp h0)
  · by_cases h1 : (pySplitlines (pyStrip s)).length = 1 ∧ pyContains s '\\' = false
    · obtain ⟨ln, hln⟩ := List.length_eq_one.mp h1.1
      right
      rw [format_docstring_single s ln i hln h1.2]
      refine ⟨pyReprQuote ln,
        ln.data.flatMap (pyReprEscape (pyReprQuote ln)) ++ [pyReprQuote ln],
        ?_, ?_⟩
      · rw [String.data_append, spaces_data]
        rfl
      · unfold pyReprQuote
        split
        · exact Or.inr (Or.inl rfl)
        · exact Or.inl rfl
    · right
      have h2 : (pySplitlines (pyStrip s)).length ≠ 1 ∨ pyContains s '\\' = true := by
        by_cases hc : pyContains s '\\' = true
        · exact Or.inr hc
        · exact Or.inl (fun hl => h1 ⟨hl, by simpa using hc⟩)
      rw [format_docstring_block s i h0 h2, List.cons_append]
      by_cases hc : pyContains s '\\' = true
      · simp only [hc, if_true]
        obtain ⟨r, hr⟩ := pyJoin_cons_data (spaces i ++ "r\"\"\"")
          ((pySplitlines (pyStrip s)).map (fun ln => spaces i ++ ln)
            ++ [spaces i ++ "\"\"\""])
        rw [hr, String.data_append, spaces_data, List.append_assoc]
        exact ⟨'r', "\"\"\"".data ++ r, rfl, Or.inr (Or.inr rfl)⟩
      · simp only [hc, Bool.false_eq_true, if_false]
        obtain ⟨r, hr⟩ := pyJoin_cons_data (spaces i ++ "\"\"\"")
          ((pySplitlines (pyStrip s)).map (fun ln => spaces i ++ ln)
            ++ [spaces i ++ "\"\"\""])
        rw [hr, String.data_append, spaces_data, List.append_assoc]
        exact ⟨'"', "\"\"".data ++ r, rfl, Or.inr (Or.inl rfl)⟩

theorem format_docstring_4_ne_overload (s : String) :
    format_description_as_docstring s 4 ≠ "    @overload" := by
  rcases format_docstring_drop s 4 with h | ⟨c, r, hdata, hc⟩
  · rw [h]
    decide
  · intro he
    rw [he] at hdata
    have h4 : List.replicate 4 ' ' ++ '@' :: "overload".data =
        List.replicate 4 ' ' ++ c :: r := by
      rw [← hdata]
      decide
    have h5 := List.append_cancel_left h4
    simp only [List.cons.injEq] at h5
    rcases hc with h' | h' | h' <;> rw [h'] at h5 <;>
      exact absurd h5.1 (by decide)

theorem ne_overload_of_colon (s : String) (h : ':' ∈ s.data) :
    s ≠ "    @overload" := by
  intro he
  rw [he] at h
  exact absurd h (by decide)

theorem mem_decorator_chunks (dups : List String) (el : FsElement) (c : String)
    (h : c ∈ decorator_chunks dups el) :
    c = "    @deprecated" ∨ c = "    @overload" ∨ c = "    @staticmethod" := by
  unfold decorator_chunks at h
  by_cases hd : el.is_deprecated = true <;> by_cases ho : el.id ∈ dups <;>
    simp [hd, ho] at h <;> tauto

theorem decorator_chunks_notClass (dups : List String) (el : FsElement)
    (c : String) (h : c ∈ decorator_chunks dups el) : isClassLine c = false := by
  rcases mem_decorator_chunks dups el c h with h' | h' | h' <;> rw [h'] <;> decide

theorem overload_mem_chunks (dups : List String) (el : FsElement)
    (sig doc2 : String) (hsig : sig ≠ "    @overload")
    (hdoc : doc2 ≠ "    @overload") :
    ("    @overload" ∈
        decorator_chunks dups el ++ [sig, doc2, "        ...", ""]) ↔
      el.id ∈ dups := by
  have hsig' : ("    @overload" : String) ≠ sig := fun h => hsig h.symm
  have hdoc' : ("    @overload" : String) ≠ doc2 := fun h => hdoc h.symm
  unfold decorator_chunks
  by_cases hd : el.is_deprecated = true <;> by_cases ho : el.id ∈ dups <;>
    simp [hd, ho, hsig', hdoc']

/-- Counterexample to claim C4 as stated: in this global-context type, both
elements share the id `x` (so each has another element with the same id), yet
no overload marker is emitted — the marker is reserved for function
elements. -/
theorem claim_C4_counterexample :
    2 ≤ ((dupFieldType.elements.map FsElement.id).count "x") ∧
    (dupFieldType.elements.map (fun el => el.is_function)) = [false, false] ∧
    emitType none dupFieldType =
      ((["class T(ExtValue):", "", "", "    x: ExtValue[int]",
         "    x: ExtValue[int]", ""], none), none) ∧
    "    @overload" ∉ (emitType none dupFieldType).1.1 := by decide

/-- Claim C4 (amended): a **function** element is emitted with the overload
marker iff at least one other element of the same Type's list shares its id;
a field (non-function) element never receives the marker, whatever the
state of emission; and the duplicate-id set is computed from that one element list
only, so elements of other Types cannot influence it. -/
theorem claim_C4_overload_markers (els : List FsElement) :
    (∀ (el : FsElement) (rtc : Option String) (chunks : List String)
      (st : Option String), el.is_function = true →
      emitElement (duplicate_elements els) rtc el = ((chunks, none), st) →
      ("    @overload" ∈ chunks ↔ 2 ≤ (els.map FsElement.id).count el.id)) ∧
    (∀ (rtc' : Option String) (el' : FsElement), el'.is_function = false →
      "    @overload" ∉ (emitElement (duplicate_elements els) rtc' el').1.1) ∧
    (∀ els', els.map FsElement.id = els'.map FsElement.id →
      duplicate_elements els = duplicate_elements els') := by
  refine ⟨?_, ?_, ?_⟩
  · intro el rtc chunks st hf h
    unfold emitElement emitFunctionElement at h
    rw [hf] at h
    rcases hA : emitArgsLoop [] el.get_arguments with ⟨entries, err⟩
    rw [hA] at h
    cases err with
    | some e => exact Option.noConfusion (congrArg (fun p => p.1.2) h)
    | none =>
        rw [← mem_duplicate_elements]
        have hdoc : format_description_as_docstring (descr_with_name el) 8 ≠
            "    @overload" :=
          format_docstring_ne_of _ _ 8 (by decide) (by decide)
        cases hty : el.type with
        | some t =>
            rw [hty] at h
            have hchunks : chunks =
                decorator_chunks (duplicate_elements els) el ++
                  [function_signature el entries
                    (" -> " ++ (format_as_python_type_extvalue (some t)).1)
                    (ret_type_comment_of t),
                   format_description_as_docstring (descr_with_name el) 8,
                   "        ...", ""] :=
              (congrArg (fun p => p.1.1) h).symm
            rw [hchunks]
            exact overload_mem_chunks _ el _ _
              (function_signature_ne_overload el entries _ _) hdoc
        | none =>
            rw [hty] at h
            cases rtc with
            | some c =>
                have hchunks : chunks =
                    decorator_chunks (duplicate_elements els) el ++
                      [function_signature el entries "" c,
                       format_description_as_docstring (descr_with_name el) 8,
                       "        ...", ""] :=
                  (congrArg (fun p => p.1.1) h).symm
                rw [hchunks]
                exact overload_mem_chunks _ el _ _
                  (function_signature_ne_overload el entries _ _) hdoc
            | none =>
                exact Option.noConfusion (congrArg (fun p => p.1.2) h)
  · intro rtc' el' hf'
    unfold emitElement
    rw [hf']
    simp only [Bool.false_eq_true, if_false]
    intro hm
    unfold emitFieldElement at hm
    rcases eseq_fst_subset _ _ _ hm with h1 | h1
    · refine ne_overload_of_colon _ ?_ (List.mem_singleton.mp h1).symm
      simp only [String.data_append, List.mem_append]
      exact Or.inl (Or.inl (Or.inr (by decide)))
    · revert h1
      split
      · intro h1
        exact format_docstring_4_ne_overload _ (List.mem_singleton.mp h1).symm
      · intro h1
        cases h1
  · intro els' hids
    unfold duplicate_elements
    rw [hids]

/-- Witness for C4 (amended): two function elements sharing the id `m` — the
emitted chunks carry the overload marker. -/
theorem claim_C4_witness :
    "    @overload" ∈
      ["    @overload", "    @staticmethod", "    def m() -> ExtValue[None]:",
       "", "        ...", ""] :=
  ((claim_C4_overload_markers [overloadFn, overloadFn]).1 overloadFn none
    ["    @overload", "    @staticmethod", "    def m() -> ExtValue[None]:",
     "", "        ...", ""] (some "") (by decide) (by decide)).mpr (by decide)

/-- Counterexample to claim C6 as stated: this function element has a
description, yet its emitted body contains both the formatted docstring and
the no-op placeholder `...` — the placeholder is printed unconditionally, not
only when the description is missing. -/
theorem claim_C6_counterexample :
    describedFn.description = some "Hi" ∧
    emitElement [] none describedFn =
      ((["    @staticmethod", "    def f() -> ExtValue[None]:", "        'Hi'",
         "        ...", ""], none), some "") ∧
    "        'Hi'" ∈ (emitElement [] none describedFn).1.1 ∧
    "        ..." ∈ (emitElement [] none describedFn).1.1 := by decide

/-- Claim C6 (amended): an emitted function element's chunks appear in the
fixed order — deprecation marker if deprecated, overload marker if its id is
duplicated, the static-call marker always, the signature line, then always a
docstring chunk (empty when there is no description) followed by the no-op
placeholder statement and a blank separator.  The signature's trailing
return comment is freshly computed when the element declares a type; a
type-less element instead reuses the leftover `ret_type_comment` local from
the last typed function, and when no typed function has run yet, emission
aborts with an unbound-local error right after the static-call marker, so no
signature (and no body) is emitted. -/
theorem claim_C6_function_emission_order (dups : List String)
    (rtc : Option String) (el : FsElement) (entries : List String)
    (hf : el.is_function = true)
    (hargs : emitArgsLoop [] el.get_arguments = (entries, none)) :
    (∀ t, el.type = some t →
      emitElement dups rtc el =
        ((decorator_chunks dups el ++
          [function_signature el entries
            (" -> " ++ (format_as_python_type_extvalue (some t)).1)
            (ret_type_comment_of t),
           format_description_as_docstring (descr_with_name el) 8,
           "        ...", ""], none),
         some (ret_type_comment_of t))) ∧
    (∀ c, el.type = none → rtc = some c →
      emitElement dups rtc el =
        ((decorator_chunks dups el ++
          [function_signature el entries "" c,
           format_description_as_docstring (descr_with_name el) 8,
           "        ...", ""], none),
         some c)) ∧
    (el.type = none → rtc = none →
      emitElement dups rtc el =
        ((decorator_chunks dups el,
          some "UnboundLocalError: cannot access local variable ret_type_comment"),
         none)) := by
  refine ⟨?_, ?_, ?_⟩
  · intro t ht
    unfold emitElement emitFunctionElement
    rw [hf, hargs, ht]
    rfl
  · intro c ht hr
    unfold emitElement emitFunctionElement
    rw [hf, hargs, ht, hr]
    rfl
  · intro ht hr
    unfold emitElement emitFunctionElement
    rw [hf, hargs, ht, hr]
    rfl

/-- Witness for C6 (amended) at a concrete described function element. -/
theorem claim_C6_witness :
    emitElement [] none describedFn =
      ((["    @staticmethod", "    def f() -> ExtValue[None]:", "        'Hi'",
         "        ...", ""], none), some "") :=
  (claim_C6_function_emission_order [] none describedFn [] (by decide)
    (by decide)).1 "void" (by decide)

/-! ## Claim C8 — the missing-docstring placeholder -/

/-- Counterexample to claim C8 as stated: a global-context Type whose
description is the empty string is emitted without any placeholder notice —
the placeholder is printed only when the description is `None`. -/
theorem claim_C8_counterexample :
    emptyDescType.description = some "" ∧
    emitType none emptyDescType =
      ((["class U(ExtValue):", "", "", ""], none), none) ∧
    "    \"(missing docstring?)\"" ∉ (emitType none emptyDescType).1.1 := by
  decide

/-- Claim C8 (amended): the placeholder notice is emitted only when a Type's
description is absent (`None`) — and emission of that Type then fails with an
attribute error immediately after the placeholder; a Type with an
empty-string description gets no placeholder, its documentation region being
two empty chunks. -/
theorem claim_C8_placeholder (rtc : Option String) (t : FsType) :
    (t.description = none →
      emitType rtc t =
        ((["class " ++ t.name ++ "(ExtValue):", "    \"(missing docstring?)\""],
          some "AttributeError: NoneType object has no attribute strip"),
         rtc)) ∧
    (t.description = some "" →
      (emitType rtc t).1.1.take 3 =
        ["class " ++ t.name ++ "(ExtValue):", "", ""]) := by
  constructor
  · intro h
    unfold emitType
    rw [eseq_chunk, h]
    rfl
  · intro h
    rcases hE : emitElementsLoop (duplicate_elements t.elements) rtc
        t.elements with ⟨⟨echunks, eerr⟩, rtc'⟩
    unfold emitType
    rw [eseq_chunk, h, hE]
    cases eerr with
    | some e =>
        show ((["class " ++ t.name ++ "(ExtValue):", "", ""] ++ echunks).take 3)
          = _
        exact List.take_left' rfl
    | none =>
        show (((["class " ++ t.name ++ "(ExtValue):", "", ""] ++ echunks)
            ++ [""]).take 3) = _
        rw [List.append_assoc]
        exact List.take_left' rfl

/-- Witness for C8 (amended) at a Type with an absent description. -/
theorem claim_C8_witness :
    emitType none noneDescType =
      ((["class V(ExtValue):", "    \"(missing docstring?)\""],
        some "AttributeError: NoneType object has no attribute strip"),
       none) :=
  (claim_C8_placeholder none noneDescType).1 rfl

/-! ## Claim C10 — the argument-description assertion -/

theorem emitArgsLoop_none_desc (args : List Argument) :
    ∀ seen, (emitArgsLoop seen args).2 = none →
    ∀ a ∈ args, py_truthy a.description = false := by
  induction args with
  | nil =>
      intro seen _ a ha
      cases ha
  | cons a rest ih =>
      intro seen h b hb
      by_cases hd : py_truthy a.description = true
      · exfalso
        simp only [emitArgsLoop, hd, if_true] at h
        cases h
      · have hd' : py_truthy a.description = false := by
          simp only [Bool.not_eq_true] at hd
          exact hd
        rcases List.mem_cons.mp hb with rfl | hb
        · exact hd'
        · rcases hE : emitArgsLoop (seen ++ [process_arg_name seen a.name])
              rest with ⟨es, er⟩
          simp only [emitArgsLoop, hd', Bool.false_eq_true, if_false, hE] at h
          exact ih _ (by rw [hE]; exact h) b hb

theorem emitElement_none_args (dups : List String) (rtc : Option String)
    (el : FsElement) (hf : el.is_function = true)
    (h : (emitElement dups rtc el).1.2 = none) :
    (emitArgsLoop [] el.get_arguments).2 = none := by
  unfold emitElement emitFunctionElement at h
  rw [hf] at h
  rcases hA : emitArgsLoop [] el.get_arguments with ⟨es, er⟩
  rw [hA] at h
  cases er with
  | some e => exact Option.noConfusion h
  | none => rfl

theorem emitElementsLoop_none (dups : List String) (els : List FsElement) :
    ∀ rtc, (emitElementsLoop dups rtc els).1.2 = none →
    ∀ el ∈ els, el.is_function = true →
    (emitArgsLoop [] el.get_arguments).2 = none := by
  induction els with
  | nil =>
      intro rtc _ el he
      cases he
  | cons e rest ih =>
      intro rtc h el he hf
      rcases hE : emitElement dups rtc e with ⟨⟨achunks, aerr⟩, rtc'⟩
      simp only [emitElementsLoop] at h
      rw [hE] at h
      cases aerr with
      | some err => exact Option.noConfusion h
      | none =>
          have h' : (emitElementsLoop dups rtc' rest).1.2 = none := h
          rcases List.mem_cons.mp he with rfl | he
          · exact emitElement_none_args dups rtc el hf (by rw [hE])
          · exact ih rtc' h' el he hf

theorem emitType_none_elements (rtc : Option String) (t : FsType)
    (h : (emitType rtc t).1.2 = none) :
    (emitElementsLoop (duplicate_elements t.elements) rtc t.elements).1.2 =
      none := by
  unfold emitType at h
  rcases hpre : eseq (chunk ("class " ++ t.name ++ "(ExtValue):"))
      (emitTypeDoc t.description) with ⟨pre1, perr⟩
  rw [hpre] at h
  cases perr with
  | some e => exact Option.noConfusion h
  | none =>
      rcases hE : emitElementsLoop (duplicate_elements t.elements) rtc
          t.elements with ⟨⟨echunks, eerr⟩, rtc'⟩
      rw [hE] at h
      cases eerr with
      | some e => exact Option.noConfusion h
      | none => rfl

theorem emitTypesLoop_none (types : List FsType) :
    ∀ rtc, (emitTypesLoop rtc types).1.2 = none →
    ∀ t ∈ types, t.context = "Global context" →
    ∃ r, (emitType r t).1.2 = none := by
  induction types with
  | nil =>
      intro rtc _ t ht
      cases ht
  | cons t rest ih =>
      intro rtc h u hu hctx
      simp only [emitTypesLoop] at h
      by_cases hc : (t.context == GLOBAL_CONTEXT ||
          t.context == "Global context") = true
      · rw [if_pos hc] at h
        rcases hE : emitType rtc t with ⟨⟨chunks, cerr⟩, rtc'⟩
        rw [hE] at h
        cases cerr with
        | some e => exact Option.noConfusion h
        | none =>
            have h' : (emitTypesLoop rtc' rest).1.2 = none := h
            rcases List.mem_cons.mp hu with rfl | hu
            · refine ⟨rtc, ?_⟩
              rw [hE]
            · exact ih rtc' h' u hu hctx
      · rw [if_neg hc] at h
        rcases List.mem_cons.mp hu with rfl | hu
        · exact absurd (by simp [hctx, GLOBAL_CONTEXT]) hc
        · exact ih rtc h u hu hctx

/-- Claim C10: emission completes only when every argument of every function
element of every emitted (global-context) Type has an empty (falsy)
description; conversely, a schema containing a global-context function
element with a described argument makes stub emission abort. -/
theorem claim_C10_argument_description_assertion (types : List FsType) :
    ((emitTypesLoop none types).1.2 = none →
      ∀ t ∈ types, t.context = "Global context" →
        ∀ el ∈ t.elements, el.is_function = true →
          ∀ a ∈ el.get_arguments, py_truthy a.description = false) ∧
    ((∃ t ∈ types, t.context = "Global context" ∧
        ∃ el ∈ t.elements, el.is_function = true ∧
          ∃ a ∈ el.get_arguments, py_truthy a.description = true) →
      (emitTypesLoop none types).1.2 ≠ none) := by
  have main : (emitTypesLoop none types).1.2 = none →
      ∀ t ∈ types, t.context = "Global context" →
        ∀ el ∈ t.elements, el.is_function = true →
          ∀ a ∈ el.get_arguments, py_truthy a.description = false := by
    intro h t ht hctx el hel hf a ha
    obtain ⟨r, hr⟩ := emitTypesLoop_none types none h t ht hctx
    have h2 := emitType_none_elements r t hr
    have h3 := emitElementsLoop_none (duplicate_elements t.elements)
      t.elements r h2 el hel hf
    exact emitArgsLoop_none_desc el.get_arguments [] h3 a ha
  refine ⟨main, ?_⟩
  rintro ⟨t, ht, hctx, el, hel, hf, a, ha, hd⟩ hnone
  have hfalse := main hnone t ht hctx el hel hf a ha
  rw [hfalse] at hd
  cases hd

/-- Witness for C10: a schema whose global type holds a function with a
described argument does not complete emission. -/
theorem claim_C10_witness : (emitTypesLoop none [describedArgType]).1.2 ≠ none :=
  (claim_C10_argument_description_assertion [describedArgType]).2
    ⟨describedArgType, by decide, by decide, describedArgFn, by decide,
     by decide, { name := some "x", type := some "float",
                  description := some "X coordinate" }, by decide, by decide⟩

/-! ## Claim C2 — context filtering and order preservation -/

theorem context_cond_eq (c : String) :
    (c == GLOBAL_CONTEXT || c == "Global context") = (c == "Global context") := by
  unfold GLOBAL_CONTEXT
  exact Bool.or_self _

theorem emitTypesLoop_eq_filter (types : List FsType) :
    ∀ rtc, emitTypesLoop rtc types =
      seqAllS rtc ((types.filter
        (fun t => t.context == "Global context")).map
          (fun t rtc' => emitType rtc' t)) := by
  induction types with
  | nil =>
      intro rtc
      rfl
  | cons t rest ih =>
      intro rtc
      simp only [emitTypesLoop, context_cond_eq]
      by_cases hc : (t.context == "Global context") = true
      · rw [if_pos hc, List.filter_cons]
        simp only [hc, if_true, List.map_cons, seqAllS]
        rcases hE : emitType rtc t with ⟨⟨chunks, cerr⟩, rtc'⟩
        cases cerr with
        | some e => rfl
        | none =>
            show (match emitTypesLoop rtc' rest with
              | (e2, rtc'') => ((chunks ++ e2.1, e2.2), rtc'')) = _
            rw [ih rtc']
      · have hc' : (t.context == "Global context") = false := by
          simpa using hc
        rw [if_neg hc, List.filter_cons]
        simp only [hc', Bool.false_eq_true, if_false]
        exact ih rtc

theorem emitElementsLoop_eq_map (dups : List String) (els : List FsElement) :
    ∀ rtc, emitElementsLoop dups rtc els =
      seqAllS rtc (els.map (fun el rtc' => emitElement dups rtc' el)) := by
  induction els with
  | nil =>
      intro rtc
      rfl
  | cons e rest ih =>
      intro rtc
      simp only [emitElementsLoop, List.map_cons, seqAllS]
      rcases hE : emitElement dups rtc e with ⟨⟨chunks, cerr⟩, rtc'⟩
      cases cerr with
      | some err => rfl
      | none =>
          show (match emitElementsLoop dups rtc' rest with
            | (e2, rtc'') => ((chunks ++ e2.1, e2.2), rtc'')) = _
          rw [ih rtc']

theorem function_signature_head (el : FsElement) (entries : List String)
    (rt rc : String) :
    (function_signature el entries rt rc).data.head? = some ' ' := by
  unfold function_signature
  simp only [String.append_assoc]
  exact head_space_append _ _ (by decide)

theorem format_docstring_notClass (s : String) (i : Nat) (hi : 1 ≤ i) :
    isClassLine (format_description_as_docstring s i) = false := by
  rcases format_docstring_data_take s i with h | h
  · rw [h]
    exact isClassLine_empty
  · apply isClassLine_false_of_head
    rw [data_head_space_of_take _ i hi h]
    simp

theorem emitTypeDoc_notClass (d : Option String) (c : String)
    (h : c ∈ (emitTypeDoc d).1) : isClassLine c = false := by
  cases d with
  | none =>
      rw [List.mem_singleton.mp h]
      decide
  | some s =>
      rcases List.mem_cons.mp h with rfl | h2
      · exact format_docstring_notClass _ 4 (by omega)
      · rw [List.mem_singleton.mp h2]
        exact isClassLine_empty

theorem fn_tail_notClass (el : FsElement) (entries : List String)
    (rt rc : String) (c : String)
    (h : c ∈ [function_signature el entries rt rc,
      format_description_as_docstring (descr_with_name el) 8,
      "        ...", ""]) : isClassLine c = false := by
  simp only [List.mem_cons, List.not_mem_nil, or_false] at h
  rcases h with rfl | rfl | rfl | rfl
  · exact isClassLine_false_of_head _
      (by rw [function_signature_head el entries rt rc]; simp)
  · exact format_docstring_notClass _ 8 (by omega)
  · decide
  · decide

theorem emitElement_notClass (dups : List String) (rtc : Option String)
    (el : FsElement) (c : String)
    (h : c ∈ (emitElement dups rtc el).1.1) : isClassLine c = false := by
  unfold emitElement emitFunctionElement at h
  by_cases hf : el.is_function = true
  · rw [hf] at h
    rcases hA : emitArgsLoop [] el.get_arguments with ⟨es, er⟩
    rw [hA] at h
    cases er with
    | some e =>
        have h' : c ∈ ([] : List String) := h
        cases h'
    | none =>
        cases hty : el.type with
        | some t =>
            rw [hty] at h
            have h' : c ∈ decorator_chunks dups el ++
                [function_signature el es
                  (" -> " ++ (format_as_python_type_extvalue (some t)).1)
                  (ret_type_comment_of t),
                 format_description_as_docstring (descr_with_name el) 8,
                 "        ...", ""] := h
            rcases List.mem_append.mp h' with h1 | h1
            · exact decorator_chunks_notClass dups el c h1
            · exact fn_tail_notClass el es _ _ c h1
        | none =>
            rw [hty] at h
            cases rtc with
            | some c' =>
                have h' : c ∈ decorator_chunks dups el ++
                    [function_signature el es "" c',
                     format_description_as_docstring (descr_with_name el) 8,
                     "        ...", ""] := h
                rcases List.mem_append.mp h' with h1 | h1
                · exact decorator_chunks_notClass dups el c h1
                · exact fn_tail_notClass el es _ _ c h1
            | none =>
                have h' : c ∈ decorator_chunks dups el := h
                exact decorator_chunks_notClass dups el c h'
  · have hf' : el.is_function = false := by
      simp only [Bool.not_eq_true] at hf
      exact hf
    rw [hf'] at h
    simp only [Bool.false_eq_true, if_false] at h
    unfold emitFieldElement at h
    rcases eseq_fst_subset _ _ _ h with h1 | h1
    · rw [List.mem_singleton.mp h1]
      apply isClassLine_false_of_head
      simp only [String.append_assoc]
      rw [head_space_append "    " _ (by decide)]
      simp
    · revert h1
      split
      · intro h1
        rw [List.mem_singleton.mp h1]
        exact format_docstring_notClass _ 4 (by omega)
      · intro h1
        cases h1

theorem emitElementsLoop_mem (dups : List String) (els : List FsElement) :
    ∀ rtc c, c ∈ (emitElementsLoop dups rtc els).1.1 →
    ∃ el ∈ els, ∃ r, c ∈ (emitElement dups r el).1.1 := by
  induction els with
  | nil =>
      intro rtc c h
      cases h
  | cons e rest ih =>
      intro rtc c h
      rcases hE : emitElement dups rtc e with ⟨⟨achunks, aerr⟩, rtc'⟩
      simp only [emitElementsLoop] at h
      rw [hE] at h
      cases aerr with
      | some err =>
          have h' : c ∈ achunks := h
          exact ⟨e, List.mem_cons_self e rest, rtc, by rw [hE]; exact h'⟩
      | none =>
          have h' : c ∈ achunks ++ (emitElementsLoop dups rtc' rest).1.1 := h
          rcases List.mem_append.mp h' with h1 | h1
          · exact ⟨e, List.mem_cons_self e rest, rtc, by rw [hE]; exact h1⟩
          · obtain ⟨el, hel, r, hc⟩ := ih rtc' c h1
            exact ⟨el, List.mem_cons_of_mem e hel, r, hc⟩

theorem emitType_shape (rtc : Option String) (t : FsType) :
    ∃ rest, (emitType rtc t).1.1 =
      ("class " ++ t.name ++ "(ExtValue):") :: rest ∧
      ∀ c ∈ rest, isClassLine c = false := by
  rcases hdoc : emitTypeDoc t.description with ⟨dchunks, derr⟩
  have hmem : ∀ c ∈ dchunks, isClassLine c = false := fun c hc =>
    emitTypeDoc_notClass t.description c (by rw [hdoc]; exact hc)
  cases derr with
  | some e =>
      refine ⟨dchunks, ?_, hmem⟩
      unfold emitType
      rw [eseq_chunk, hdoc]
  | none =>
      rcases hE : emitElementsLoop (duplicate_elements t.elements) rtc
          t.elements with ⟨⟨echunks, eerr⟩, rtc'⟩
      have hememb : ∀ c ∈ echunks, isClassLine c = false := by
        intro c hc
        obtain ⟨el, _, r, hc2⟩ := emitElementsLoop_mem _ _ rtc c
          (by rw [hE]; exact hc)
        exact emitElement_notClass _ _ _ _ hc2
      cases eerr with
      | some e =>
          refine ⟨dchunks ++ echunks, ?_, ?_⟩
          · unfold emitType
            rw [eseq_chunk, hdoc, hE]
            rfl
          · intro c hc
            rcases List.mem_append.mp hc with h1 | h1
            · exact hmem c h1
            · exact hememb c h1
      | none =>
          refine ⟨dchunks ++ echunks ++ [""], ?_, ?_⟩
          · unfold emitType
            rw [eseq_chunk, hdoc, hE]
            rfl
          · intro c hc
            rcases List.mem_append.mp hc with h1 | h1
            · rcases List.mem_append.mp h1 with h2 | h2
              · exact hmem c h2
              · exact hememb c h2
            · rw [List.mem_singleton.mp h1]
              exact isClassLine_empty

theorem emitTypesLoop_filter_classes (types : List FsType) :
    ∀ rtc, (emitTypesLoop rtc types).1.2 = none →
    (emitTypesLoop rtc types).1.1.filter isClassLine =
      (types.filter (fun t => t.context == "Global context")).map
        (fun t => "class " ++ t.name ++ "(ExtValue):") := by
  induction types with
  | nil =>
      intro rtc _
      rfl
  | cons t rest ih =>
      intro rtc h
      simp only [emitTypesLoop, context_cond_eq] at h ⊢
      by_cases hc : (t.context == "Global context") = true
      · rw [if_pos hc] at h ⊢
        rw [List.filter_cons]
        simp only [hc, if_true, List.map_cons]
        rcases hE : emitType rtc t with ⟨⟨chunks, cerr⟩, rtc'⟩
        rw [hE] at h
        cases cerr with
        | some e => exact Option.noConfusion h
        | none =>
            have h' : (emitTypesLoop rtc' rest).1.2 = none := h
            have hih := ih rtc' h'
            obtain ⟨restChunks, hshape, hnc⟩ := emitType_shape rtc t
            rw [hE] at hshape
            have hs' : chunks =
                ("class " ++ t.name ++ "(ExtValue):") :: restChunks := hshape
            show (chunks ++ (emitTypesLoop rtc' rest).1.1).filter isClassLine = _
            rw [hs', List.cons_append, List.filter_cons]
            have hcl : isClassLine ("class " ++ t.name ++ "(ExtValue):") = true := by
              rw [String.append_assoc]
              exact isClassLine_class _
            rw [hcl]
            have hnil : (restChunks ++
                (emitTypesLoop rtc' rest).1.1).filter isClassLine =
                (emitTypesLoop rtc' rest).1.1.filter isClassLine := by
              rw [List.filter_append]
              have hz : restChunks.filter isClassLine = [] := by
                apply List.filter_eq_nil_iff.mpr
                intro c hc2
                rw [hnc c hc2]
                simp
              rw [hz]
              rfl
            rw [hnil, hih]
            rfl
      · have hc' : (t.context == "Global context") = false := by
          simpa using hc
        rw [if_neg hc] at h ⊢
        rw [List.filter_cons]
        simp only [hc', Bool.false_eq_true, if_false]
        exact ih rtc h

/-- Claim C2: the emitter emits exactly the Types whose context equals
`Global context`, in input order (the loop with its `continue` equals
filter-then-emit with the `ret_type_comment` local threaded in order, and on
a completed run the class-declaration lines of the output are the filtered
types' class lines in order); elements are emitted in declaration order (the
element loop equals the in-order sequencing of the per-element emitters). -/
theorem claim_C2_context_filter_and_order (types : List FsType)
    (dups : List String) (els : List FsElement) :
    (∀ rtc, emitTypesLoop rtc types =
      seqAllS rtc ((types.filter
        (fun t => t.context == "Global context")).map
          (fun t rtc' => emitType rtc' t))) ∧
    (∀ rtc, emitElementsLoop dups rtc els =
      seqAllS rtc (els.map (fun el rtc' => emitElement dups rtc' el))) ∧
    ((emitTypesLoop none types).1.2 = none →
      (emitTypesLoop none types).1.1.filter isClassLine =
        (types.filter (fun t => t.context == "Global context")).map
          (fun t => "class " ++ t.name ++ "(ExtValue):")) :=
  ⟨emitTypesLoop_eq_filter types, emitElementsLoop_eq_map dups els,
   emitTypesLoop_filter_classes types none⟩

/-- Witness for C2: the two-type document emits exactly one class line, for
its single global-context type; the `expdef file` type contributes nothing. -/
theorem claim_C2_witness :
    (emitTypesLoop none [emptyDescType, expdefType]).1.1.filter isClassLine =
      ["class U(ExtValue):"] :=
  (claim_C2_context_filter_and_order [emptyDescType, expdefType] [] []).2.2
    (by decide)
/-! ## Claim C9 — determinism of emission -/

/-- Claim C9: emission is a pure function of the Schema — two runs on equal
documents produce byte-identical output text. -/
theorem claim_C9_determinism (d1 d2 : FramscriptDoc) (h : d1 = d2) :
    outTextOf (main_write_framscript_part_of_the_stub d1).1 =
      outTextOf (main_write_framscript_part_of_the_stub d2).1 := by
  rw [h]

/-- Witness for C9 at a concrete document. -/
theorem claim_C9_witness :
    outTextOf (main_write_framscript_part_of_the_stub sampleDoc).1 =
      outTextOf (main_write_framscript_part_of_the_stub sampleDoc).1 :=
  claim_C9_determinism sampleDoc sampleDoc rfl

/-! ## Claim C1 — behaviour on structural validation failure -/

/-- Claim C1 (code evaluation): on a document whose first Type lacks the
required `name` attribute, the `__main__` handler prints the error entries to
**standard output** (not the diagnostic stream) and the process then ends
with exit code **0**, contradicting the claimed non-zero termination.  No
stub text reaches the output. -/
theorem claim_C1_validation_failure_behavior :
    runMain (.error missingNameErrs) =
      { stdoutChunks := ["----\n\n\n",
          "loc: (types, 0, name) msg: Field required"],
        stderrChunks := ["traceback: pydantic ValidationError"],
        exitCode := 0 } ∧
    (runMain (.error missingNameErrs)).exitCode = 0 := by
  exact ⟨rfl, rfl⟩

end Framspy
